import Mathlib

/-!
# SpikeShield — verification of the detection-to-settlement pipeline

Shallow embedding of the SpikeShield backend (Go) and proofs about it.

Modelling conventions:
* Go `float64` price/amount fields are modelled as exact rationals (`ℚ`);
  all inputs used in concrete evaluations keep prices strictly positive so
  no division-by-zero corner is exercised.
* SQL tables are lists of rows kept in insertion order; `SERIAL` ids are a
  counter in the state.  `timestamp` columns are `Int` (seconds).
* Go functions returning `error` become functions returning a pair of the
  (possibly partially updated) database state and `Option String`; database
  reads and writes themselves are deterministic, while the external ledger
  RPC calls are oracles passed as arguments.
-/

namespace SpikeShield

/-- A row of the `prices` table (Go struct `db.PriceData`).  The table is
kept in ascending `timestamp` order (the candle feed's insertion order), so
`ORDER BY timestamp DESC LIMIT 1` is the last matching row and
`ORDER BY timestamp` is the list order. -/
structure PriceData where
  id : Nat
  timestamp : Int
  symbol : String
  openPrice : ℚ
  high : ℚ
  low : ℚ
  close : ℚ
  volume : ℚ
  deriving Repr, DecidableEq

/-- The detector's spike record (Go struct `db.Spike` of
`src/backend/db/db.go`, the struct `src/backend/detector/detect.go`
builds): output of the drop-percent rule. -/
structure Spike where
  id : Nat
  timestamp : Int
  symbol : String
  priceBefore : ℚ
  priceAfter : ℚ
  dropPercent : ℚ
  deriving Repr, DecidableEq

/-- Go struct `detector.Detector`. -/
structure Detector where
  thresholdPercent : ℚ
  windowMinutes : Nat
  symbol : String
  deriving Repr, DecidableEq

/-- The running-maximum loop shared by `CheckForSpike` and
`DetectAllInRange`: `var maxPrice float64` (zero initialised), then
`if p.Close > maxPrice { maxPrice = p.Close }`. -/
def maxClose (prices : List PriceData) : ℚ :=
  prices.foldl (fun m p => if p.close > m then p.close else m) 0

/-- `db.GetLatestPrice`: `WHERE symbol = $1 ORDER BY timestamp DESC LIMIT 1`
on an ascending table is its last matching row; an empty result is the
`sql.ErrNoRows` error. -/
def getLatestPrice (tbl : List PriceData) (sym : String) : Option PriceData :=
  (tbl.filter (fun p => p.symbol == sym)).getLast?

/-- `db.GetPricesBetween`: `WHERE symbol = $1 AND timestamp BETWEEN $2 AND $3
ORDER BY timestamp` (BETWEEN is inclusive on both ends). -/
def getPricesBetween (tbl : List PriceData) (sym : String) (s e : Int) : List PriceData :=
  tbl.filter (fun p => p.symbol == sym && decide (s ≤ p.timestamp) && decide (p.timestamp ≤ e))

/-- `Detector.CheckForSpike` (src/backend/detector/detect.go:28-86), the
streaming path: take the latest candle, gather the candles of the last
`WindowMinutes` minutes (including the latest itself), and report a spike
when the close dropped from the window's maximum close by at least
`ThresholdPercent` percent.  The `InsertSpike` call is modelled as always
succeeding (its only effect is the generated id, irrelevant here). -/
def checkForSpike (d : Detector) (tbl : List PriceData) : Except String (Option Spike) :=
  match getLatestPrice tbl d.symbol with
  | none => .error "failed to get latest price"
  | some latest =>
    let windowStart := latest.timestamp - 60 * (d.windowMinutes : Int)
    let prices := getPricesBetween tbl d.symbol windowStart latest.timestamp
    if prices.length < 2 then .ok none
    else
      let maxPrice := maxClose prices
      let dropPercent := (maxPrice - latest.close) / maxPrice * 100
      if d.thresholdPercent ≤ dropPercent then
        .ok (some { id := 0, timestamp := latest.timestamp, symbol := d.symbol,
                    priceBefore := maxPrice, priceAfter := latest.close,
                    dropPercent := dropPercent })
      else .ok none

/-- One iteration of the `DetectAllInRange` scan loop
(src/backend/detector/detect.go:126-158) at index `i`: the look-back window
is the `w` rows preceding row `i` (the current row excluded), and the loop
only runs for `w ≤ i < len`. -/
def spikeAt? (θ : ℚ) (w : Nat) (sym : String) (prices : List PriceData) (i : Nat) :
    Option Spike :=
  if w ≤ i then
    match prices[i]? with
    | none => none
    | some current =>
      let window := (prices.drop (i - w)).take w
      let maxPrice := maxClose window
      let dropPercent := (maxPrice - current.close) / maxPrice * 100
      if θ ≤ dropPercent then
        some { id := 0, timestamp := current.timestamp, symbol := sym,
               priceBefore := maxPrice, priceAfter := current.close,
               dropPercent := dropPercent }
      else none
  else none

/-- `Detector.DetectAllInRange` (src/backend/detector/detect.go:110-162),
the batch/replay path.  Spike inserts are modelled as always succeeding
(on an insert error the Go code merely skips that spike). -/
def detectAllInRange (d : Detector) (tbl : List PriceData) (s e : Int) :
    Except String (List Spike) :=
  let prices := getPricesBetween tbl d.symbol s e
  if prices.length < 2 then .error "insufficient price data"
  else .ok ((List.range prices.length).filterMap
    (spikeAt? d.thresholdPercent d.windowMinutes d.symbol prices))

/-- Whether the streaming path classified the newest candle as a spike. -/
def streamingQualifies (d : Detector) (tbl : List PriceData) : Bool :=
  match checkForSpike d tbl with
  | .ok (some _) => true
  | _ => false

/-- Modelled from the spec: the wick qualification rule of the
current-generation detector — `range = high − low > 0`,
`|close − open| / range ≤ bodyRatioMax` and `range / close ≥ rangeThreshold`
(defaults 0.30 and 0.10).  The Go source of this evaluator is not under
`src/`; only its declarations are: the `spikes(body_ratio,
range_close_percent)` schema, `db.Spike.BodyRatio`/`RangeClosePercent` and
`InsertSpike(s, priceID)` of the current `db` package, and the README/config
constants `body_ratio_max: 0.3`, `threshold_percent: 0.1`. -/
def wickQualifies (bodyRatioMax rangeThreshold : ℚ) (c : PriceData) : Bool :=
  let range := c.high - c.low
  let body := |c.close - c.openPrice|
  decide (0 < range) && decide (body / range ≤ bodyRatioMax) &&
    decide (rangeThreshold ≤ range / c.close)

/-! ## Local state store (schema of `schema.sql`, operations of the current
`db` package, src/unnamed/part_004 and src/unnamed/part_003) -/

/-- A row of the `policies` table.  `tx_hash VARCHAR(66) UNIQUE` is nullable
(`Option`, and SQL `NULL`s never conflict); `UNIQUE(user_address,
purchase_time)` is a second constraint. -/
structure PolicyRow where
  id : Nat
  userAddress : String
  premium : ℚ
  coverageAmount : ℚ
  purchaseTime : Int
  expiryTime : Int
  status : String
  txHash : Option String
  deriving Repr, DecidableEq

/-- A row of the `payouts` table: `policy_id INTEGER UNIQUE` and
`tx_hash VARCHAR(66) UNIQUE` are both nullable unique columns. -/
structure PayoutRow where
  id : Nat
  policyId : Option Nat
  userAddress : String
  amount : ℚ
  spikeId : Option Nat
  txHash : Option String
  executedAt : Int
  deriving Repr, DecidableEq

/-- The mutable database state: the three tables the settlement pipeline
writes, plus the `SERIAL` counters that generate fresh ids. -/
structure DBState where
  policies : List PolicyRow
  payouts : List PayoutRow
  syncState : List (String × Nat)
  nextPolicyId : Nat
  nextPayoutId : Nat
  deriving Repr, DecidableEq

/-- Status of the first policy row with the given id, if any. -/
def statusOf (st : DBState) (pid : Nat) : Option String :=
  (st.policies.find? (fun p => p.id == pid)).map (fun p => p.status)

/-- Number of payout rows carrying the given (non-null) transaction hash. -/
def txHashCount (st : DBState) (h : String) : Nat :=
  st.payouts.countP (fun p => p.txHash == some h)

/-- The invariant of spec §3: at most one Payout row per ledger transaction
identifier. -/
def AtMostOnePayoutPerTx (st : DBState) : Prop :=
  ∀ h : String, txHashCount st h ≤ 1

/-- The `sync_state` row of a contract (`contract_address` is `UNIQUE`). -/
def lookupSync (addr : String) (st : DBState) : Option Nat :=
  (st.syncState.find? (fun kv => kv.fst == addr)).map (fun kv => kv.snd)

/-- The Postgres error message of a unique-constraint violation. -/
def dupKeyMsg : String := "duplicate key value violates unique constraint"

/-- `db.InsertPayout` (current db package, part_004:180-185): a plain
`INSERT INTO payouts ... RETURNING id` with no `ON CONFLICT` clause.  A row
that violates `payouts.tx_hash UNIQUE` or `payouts.policy_id UNIQUE` makes
the statement fail with a uniqueness error and inserts nothing. -/
def insertPayout (policyId : Nat) (user : String) (amount : ℚ) (spikeId : Nat)
    (txHash : String) (now : Int) (st : DBState) : DBState × Option String :=
  if st.payouts.any (fun p => p.txHash == some txHash) ||
      st.payouts.any (fun p => p.policyId == some policyId) then
    (st, some dupKeyMsg)
  else
    let row : PayoutRow :=
      { id := st.nextPayoutId, policyId := some policyId, userAddress := user,
        amount := amount, spikeId := some spikeId, txHash := some txHash,
        executedAt := now }
    ({ st with payouts := st.payouts ++ [row],
               nextPayoutId := st.nextPayoutId + 1 }, none)

/-- `db.UpdatePolicyStatus` (part_004:187-192):
`UPDATE policies SET status = $1 WHERE id = $2` — an unconditional write,
with no guard on the current status. -/
def updatePolicyStatus (policyId : Nat) (status : String) (st : DBState) : DBState :=
  let ps := st.policies.map
    (fun p => if p.id == policyId then { p with status := status } else p)
  { st with policies := ps }

/-- `db.GetActivePolicies` (part_004:158-178):
`WHERE status = 'active' AND expiry_time > NOW()`. -/
def getActivePolicies (now : Int) (st : DBState) : List PolicyRow :=
  st.policies.filter (fun p => p.status == "active" && decide (now < p.expiryTime))

/-- `db.InsertPolicyFromEvent` (part_004:316-344): insert an `active` policy
with `ON CONFLICT (tx_hash) DO NOTHING`.  A conflict on the other unique key
`(user_address, purchase_time)` is not in the conflict target and still
fails. -/
def insertPolicyFromEvent (user : String) (premium coverage : ℚ) (expiry : Int)
    (txHash : String) (now : Int) (st : DBState) : DBState × Option String :=
  if st.policies.any (fun p => p.txHash == some txHash) then
    (st, none)
  else if st.policies.any (fun p => p.userAddress == user && p.purchaseTime == now) then
    (st, some dupKeyMsg)
  else
    let row : PolicyRow :=
      { id := st.nextPolicyId, userAddress := user, premium := premium,
        coverageAmount := coverage, purchaseTime := now, expiryTime := expiry,
        status := "active", txHash := some txHash }
    ({ st with policies := st.policies ++ [row],
               nextPolicyId := st.nextPolicyId + 1 }, none)

/-- `db.InsertPayoutFromEvent` (part_004:346-396).  The `policyID` argument
of the Go function is never read; the function re-resolves the policy as the
most recent (highest id) `active` policy of the holder, flips that policy to
`claimed`, and then inserts the payout with `ON CONFLICT (tx_hash) DO
NOTHING` (and a `NULL` policy link when no policy was resolved).  A conflict
on `payouts.policy_id`, not being in the conflict target, still fails — after
the status update already took effect. -/
def insertPayoutFromEvent (user : String) (policyID : Nat) (amount : ℚ)
    (txHash : String) (now : Int) (st : DBState) : DBState × Option String :=
  let _ := policyID
  let cands := (st.policies.filter
    (fun p => p.userAddress == user && p.status == "active")).map (fun p => p.id)
  let resolved : Option Nat := cands.max?
  let st1 := match resolved with
    | some pid => updatePolicyStatus pid "claimed" st
    | none => st
  if st1.payouts.any (fun p => p.txHash == some txHash) then
    (st1, none)
  else if resolved.any (fun pid => st1.payouts.any (fun p => p.policyId == some pid)) then
    (st1, some dupKeyMsg)
  else
    let row : PayoutRow :=
      { id := st1.nextPayoutId, policyId := resolved, userAddress := user,
        amount := amount, spikeId := none, txHash := some txHash,
        executedAt := now }
    ({ st1 with payouts := st1.payouts ++ [row],
                nextPayoutId := st1.nextPayoutId + 1 }, none)

/-- `db.UpdateLastSyncedBlock` (part_004:427-438): upsert keyed on
`contract_address`. -/
def updateLastSyncedBlock (addr : String) (blockNumber : Nat) (st : DBState) : DBState :=
  if st.syncState.any (fun kv => kv.fst == addr) then
    let ss := st.syncState.map
      (fun kv => if kv.fst == addr then (kv.fst, blockNumber) else kv)
    { st with syncState := ss }
  else
    { st with syncState := st.syncState ++ [(addr, blockNumber)] }

/-- Outcome of the `SELECT last_synced_block ... WHERE contract_address = $1`
scan: a transient failure (`fail = some e`) errors, a missing row errors with
`sql.ErrNoRows`, otherwise the stored height is returned. -/
def scanLastSynced (st : DBState) (addr : String) (fail : Option String) :
    Except String Nat :=
  match fail with
  | some e => .error e
  | none =>
    match lookupSync addr st with
    | some v => .ok v
    | none => .error "sql: no rows in result set"

/-- `db.GetLastSyncedBlock` (part_004:413-425): any scan error — missing row
or transient read failure alike — is swallowed and `(0, nil)` is returned. -/
def getLastSyncedBlock (r : Except String Nat) : Nat × Option String :=
  match r with
  | .ok v => (v, none)
  | .error _ => (0, none)

/-! ## Settlement executor (src/backend/api/payout.go) -/

/-- The mock transaction hash of `executeForPolicy` (payout.go:112):
`fmt.Sprintf("0x%064d", spike.ID)` — a function of the spike id alone,
identical for every policy settled on the same spike. -/
def mockTxHash (spikeId : Nat) : String :=
  let s := toString spikeId
  "0x" ++ String.mk (List.replicate (64 - s.length) '0') ++ s

/-- `PayoutService.executeForPolicy` (payout.go:82-138).  `env policy.id`
models the two fallible external client calls that precede any state change
(`NewKeyedTransactorWithChainID`, `SuggestGasPrice`): `some e` makes the
call fail with error `e` before anything is written.  The ledger submission
itself is simulated in this code (mock transaction hash, no ledger error
path).  On an `InsertPayout` error the policy status is left untouched; on
success the status is unconditionally set to `claimed`. -/
def executeForPolicy (env : Nat → Option String) (spike : Spike) (now : Int)
    (policy : PolicyRow) (st : DBState) : DBState × Option String :=
  match env policy.id with
  | some e => (st, some e)
  | none =>
    let txHash := mockTxHash spike.id
    let r := insertPayout policy.id policy.userAddress policy.coverageAmount
      spike.id txHash now st
    match r.2 with
    | some e => (r.1, some e)
    | none => (updatePolicyStatus policy.id "claimed" r.1, none)

/-- One iteration of the per-policy loop of `PayoutService.ExecutePayout`
(payout.go:71-76): attempt the policy and record its outcome. -/
def executeStep (env : Nat → Option String) (spike : Spike) (now : Int)
    (acc : DBState × List (Nat × Option String)) (policy : PolicyRow) :
    DBState × List (Nat × Option String) :=
  let r := executeForPolicy env spike now policy acc.1
  (r.1, acc.2 ++ [(policy.id, r.2)])

/-- The per-policy loop of `PayoutService.ExecutePayout` (payout.go:71-76):
each eligible policy is attempted in turn, a failing policy is logged and
skipped (`continue`), and the pair of final state and per-policy outcomes is
returned. -/
def executePayoutRun (env : Nat → Option String) (spike : Spike) (now : Int)
    (st : DBState) : DBState × List (Nat × Option String) :=
  (getActivePolicies now st).foldl (executeStep env spike now) (st, [])

/-- `PayoutService.ExecutePayout` (payout.go:54-79): runs the per-policy
loop and returns `nil` (per-policy failures are isolated; with the database
reads modelled as reliable, the function itself never fails). -/
def executePayout (env : Nat → Option String) (spike : Spike) (now : Int)
    (st : DBState) : DBState × Option String :=
  ((executePayoutRun env spike now st).1, none)

/-! ## Ledger reconciler (src/backend/eventlistener/listener.go) -/

/-- A parsed contract log entry, as dispatched by `processLog`
(listener.go:172-184): the two known events plus everything else. -/
inductive EvLog where
  | policyPurchased (user : String) (premium coverage : ℚ) (expiry : Int) (txHash : String)
  | payoutExecuted (user : String) (policyId : Nat) (amount : ℚ) (txHash : String)
  | unknown
  deriving Repr, DecidableEq

/-- `processLog` (listener.go:172-184): dispatch by event signature; unknown
events are skipped. -/
def processLog (now : Int) (l : EvLog) (st : DBState) : DBState × Option String :=
  match l with
  | .policyPurchased user premium coverage expiry txHash =>
      insertPolicyFromEvent user premium coverage expiry txHash now st
  | .payoutExecuted user policyId amount txHash =>
      insertPayoutFromEvent user policyId amount txHash now st
  | .unknown => (st, none)

/-- The per-log loop of `fetchAndProcessEvents` (listener.go:157-162): a
failing log entry is logged and skipped (`continue`). -/
def processLogs (now : Int) (logs : List EvLog) (st : DBState) : DBState :=
  logs.foldl (fun s l => (processLog now l s).1) st

/-- `fetchAndProcessEvents` (listener.go:145-169): fetch the chunk's logs
(`fetch` is the `FilterLogs` RPC oracle); a fetch failure is the only error
this function returns. -/
def fetchAndProcessEvents (fetch : Nat → Nat → Except String (List EvLog)) (now : Int)
    (fromBlock toBlock : Nat) (st : DBState) : DBState × Option String :=
  match fetch fromBlock toBlock with
  | .error e => (st, some e)
  | .ok logs => (processLogs now logs st, none)

/-- `chunkSize := uint64(1000)` (listener.go:124). -/
def chunkSize : Nat := 1000

/-- The chunk bounds generated by the sync loop (listener.go:125-134):
`for fromBlock := lastBlock + 1; fromBlock <= currentBlock; fromBlock +=
chunkSize { toBlock := min(fromBlock + chunkSize - 1, currentBlock) }`.
Modelled over `Nat`; this agrees with Go's `uint64` whenever
`currentBlock + chunkSize` does not overflow. -/
def chunkRanges (fromBlock currentBlock : Nat) : List (Nat × Nat) :=
  if fromBlock ≤ currentBlock then
    (fromBlock, min (fromBlock + chunkSize - 1) currentBlock) ::
      chunkRanges (fromBlock + chunkSize) currentBlock
  else []
  termination_by currentBlock + 1 - fromBlock
  decreasing_by simp_wf; simp only [chunkSize]; omega

/-- The chunk loop body: process chunks in order and stop at the first
failing chunk, keeping the state mutations of the chunks already processed. -/
def processChunks (fetch : Nat → Nat → Except String (List EvLog)) (now : Int) :
    List (Nat × Nat) → DBState → DBState × Option String
  | [], st => (st, none)
  | c :: rest, st =>
    let r := fetchAndProcessEvents fetch now c.1 c.2 st
    match r.2 with
    | some e => (r.1, some e)
    | none => processChunks fetch now rest r.1

/-- The first-run seeding of `syncEvents` (listener.go:114-119):
`if lastBlock == 0 { if currentBlock > 1000 { lastBlock = currentBlock -
1000 } }`. -/
def seedHeight (lastBlock currentBlock : Nat) : Nat :=
  if lastBlock == 0 && decide (1000 < currentBlock) then currentBlock - 1000 else lastBlock

/-- The body of `syncEvents` after the checkpoint read produced `lastBlock`
(listener.go:104-141): read the current height, no-op when caught up,
otherwise seed, process the chunked range, and persist the checkpoint only
when every chunk succeeded. -/
def syncEventsFrom (fetch : Nat → Nat → Except String (List EvLog))
    (blockNumber : Except String Nat) (now : Int) (addr : String)
    (lastBlock : Nat) (st : DBState) : DBState × Option String :=
  match blockNumber with
  | .error e => (st, some e)
  | .ok currentBlock =>
    if currentBlock ≤ lastBlock then (st, none)
    else
      let seeded := seedHeight lastBlock currentBlock
      let r := processChunks fetch now (chunkRanges (seeded + 1) currentBlock) st
      match r.2 with
      | some e => (r.1, some e)
      | none => (updateLastSyncedBlock addr currentBlock r.1, none)

/-- `EventListener.syncEvents` (listener.go:97-142).  `ckptFail` injects a
transient failure into the checkpoint read; `blockNumber` is the
`BlockNumber` RPC outcome.  `GetLastSyncedBlock` never reports an error
(see `getLastSyncedBlock`), so the error branch after it is dead code,
reproduced faithfully. -/
def syncEvents (fetch : Nat → Nat → Except String (List EvLog))
    (blockNumber : Except String Nat) (ckptFail : Option String) (now : Int)
    (addr : String) (st : DBState) : DBState × Option String :=
  let r := getLastSyncedBlock (scanLastSynced st addr ckptFail)
  match r.2 with
  | some _ => (st, some "failed to get last synced block")
  | none => syncEventsFrom fetch blockNumber now addr r.1 st

/-- The write operations of the pipeline, as invoked in the code: the
Reconciler merging a purchase event, the Reconciler merging a settlement
event, a full Executor run on a spike, and a full Reconciler tick.
`UpdatePolicyStatus` is only ever called with status `claimed`
(payout.go:130), inside `executeForPolicy`. -/
inductive Step : DBState → DBState → Prop where
  | purchase (user : String) (premium coverage : ℚ) (expiry : Int)
      (txHash : String) (now : Int) (st : DBState) :
      Step st (insertPolicyFromEvent user premium coverage expiry txHash now st).1
  | payoutEvent (user : String) (policyId : Nat) (amount : ℚ) (txHash : String)
      (now : Int) (st : DBState) :
      Step st (insertPayoutFromEvent user policyId amount txHash now st).1
  | execute (env : Nat → Option String) (spike : Spike) (now : Int) (st : DBState) :
      Step st (executePayout env spike now st).1
  | sync (fetch : Nat → Nat → Except String (List EvLog))
      (blockNumber : Except String Nat) (ckptFail : Option String) (now : Int)
      (addr : String) (st : DBState) :
      Step st (syncEvents fetch blockNumber ckptFail now addr st).1

/-! ## Helper lemmas -/

theorem maxClose_append_single (l : List PriceData) (c : PriceData) :
    maxClose (l ++ [c]) = if c.close > maxClose l then c.close else maxClose l := by
  simp [maxClose, List.foldl_append]

/-! ## Concrete scenario data -/

/-- A flat candle preceding the Scenario-B wick candle. -/
def candleFlat : PriceData :=
  { id := 1, timestamp := 0, symbol := "BTCUSDT", openPrice := 44000, high := 44000,
    low := 44000, close := 44000, volume := 0 }

/-- The spec's Scenario-B wick candle: open 44000, close 43900, high 48000,
low 39500 — body 100, range 8500, body/range ≈ 0.0118, range/close ≈ 0.194. -/
def candleWickB : PriceData :=
  { id := 2, timestamp := 60, symbol := "BTCUSDT", openPrice := 44000, high := 48000,
    low := 39500, close := 43900, volume := 0 }

/-- A detector configured with a 10% drop threshold over a 1-minute window. -/
def detector10 : Detector :=
  { thresholdPercent := 10, windowMinutes := 1, symbol := "BTCUSDT" }

/-! ## C1 — the wick qualification rule -/

/-- C1 (code bug): the claim states that the detector's evaluation
qualifies a candle iff `range > 0 ∧ body/range ≤ 0.30 ∧ range/close ≥
0.10`.  The detector actually shipped under `src/` (`CheckForSpike`)
classifies by the drop of the close from the window's maximum close and
never reads `open`, `high` or `low`: on the Scenario-B wick candle
(preceded by a flat 44000 candle) the wick rule qualifies, yet
`CheckForSpike` reports no spike (the close dropped only ≈0.23%).  The
repository's own README, `config.yaml` and `spikes` schema document the
wick rule, so the stale `detect.go` is the slip. -/
theorem spec_C1_wick_rule_vs_shipped_detector :
    wickQualifies (3/10) (1/10) candleWickB = true ∧
      checkForSpike detector10 [candleFlat, candleWickB] = .ok none := by
  constructor
  · norm_num [wickQualifies, candleWickB]
  · norm_num [checkForSpike, getLatestPrice, getPricesBetween, maxClose,
      candleFlat, candleWickB, detector10, List.filter, List.foldl, List.getLast?]

/-! ## C9 — streaming vs batch detection -/

/-- Candles for the divergence input: two candles ten minutes apart. -/
def candleC9a : PriceData :=
  { id := 1, timestamp := 0, symbol := "BTCUSDT", openPrice := 100, high := 100,
    low := 100, close := 100, volume := 0 }

def candleC9b : PriceData :=
  { id := 2, timestamp := 600, symbol := "BTCUSDT", openPrice := 100, high := 100,
    low := 80, close := 80, volume := 0 }

/-- C9 counterexample: the streaming path and the batch path are not the
same evaluation function and their decisions differ for the same candle.
With candles at t=0 (close 100) and t=600s (close 80), a 1-minute window
and a 10% threshold, the streaming path finds only one row inside the
timestamp window of the newest candle and abstains, while the batch path
(whose window is the preceding `windowMinutes` rows by index) detects a 20%
drop at that same candle. -/
theorem spec_C9_cex :
    streamingQualifies detector10 [candleC9a, candleC9b] = false ∧
      (detectAllInRange detector10 [candleC9a, candleC9b] 0 600).map
        (fun l => l.map Spike.timestamp) = .ok [600] := by
  constructor
  · norm_num [streamingQualifies, checkForSpike, getLatestPrice, getPricesBetween,
      candleC9a, candleC9b, detector10, List.filter, List.getLast?]
  · norm_num [detectAllInRange, getPricesBetween, candleC9a, candleC9b, detector10,
      List.filter, List.range, List.range.loop, spikeAt?, maxClose, List.filterMap,
      List.getElem?_cons_succ, List.getElem?_cons_zero, Except.map]

/-- C9 (amended): the two modes agree for a candle exactly when they see the
same history — if the newest candle's timestamp window selects the batch
path's index window plus the newest candle itself, and the newest close does
not exceed that prior window's maximum, then the streaming decision equals
the batch decision for that candle. -/
theorem spec_C9_amended (d : Detector) (tbl : List PriceData) (s e : Int)
    (c : PriceData) (prior : List PriceData) (i : Nat)
    (hlast : getLatestPrice tbl d.symbol = some c)
    (hwin : getPricesBetween tbl d.symbol
      (c.timestamp - 60 * (d.windowMinutes : Int)) c.timestamp = prior ++ [c])
    (hprior : prior ≠ [])
    (hw : d.windowMinutes ≤ i)
    (hcur : (getPricesBetween tbl d.symbol s e)[i]? = some c)
    (hbw : ((getPricesBetween tbl d.symbol s e).drop (i - d.windowMinutes)).take
      d.windowMinutes = prior)
    (hmax : c.close ≤ maxClose prior) :
    streamingQualifies d tbl =
      (spikeAt? d.thresholdPercent d.windowMinutes d.symbol
        (getPricesBetween tbl d.symbol s e) i).isSome := by
  have hlen : (prior ++ [c]).length ≥ 2 := by
    rcases prior with _ | ⟨p, l⟩
    · exact absurd rfl hprior
    · simp
  have hmax' : ¬ (c.close > maxClose prior) := not_lt.mpr hmax
  have hplen : 0 < prior.length := List.length_pos.mpr hprior
  have hnotlt : ¬ ((prior ++ [c]).length < 2) := by
    simp only [List.length_append, List.length_singleton]
    omega
  unfold streamingQualifies checkForSpike spikeAt?
  rw [hlast]
  dsimp only
  rw [hwin, hcur, hbw, if_neg hnotlt, if_pos hw]
  dsimp only
  rw [maxClose_append_single, if_neg hmax']
  by_cases hθ : d.thresholdPercent ≤ (maxClose prior - c.close) / maxClose prior * 100
  · rw [if_pos hθ, if_pos hθ]
    simp
  · rw [if_neg hθ, if_neg hθ]
    simp

/-- Witness data for `spec_C9_amended`: two candles one minute apart. -/
def candleC9w0 : PriceData :=
  { id := 1, timestamp := 0, symbol := "BTCUSDT", openPrice := 100, high := 100,
    low := 100, close := 100, volume := 0 }

def candleC9w1 : PriceData :=
  { id := 2, timestamp := 60, symbol := "BTCUSDT", openPrice := 100, high := 100,
    low := 90, close := 90, volume := 0 }

/-- Witness for `spec_C9_amended` at a concrete input: with candles at t=0
(close 100) and t=60s (close 90), both windows coincide and both paths
classify the newest candle as a 10% spike. -/
theorem spec_C9_amended_wit :
    streamingQualifies detector10 [candleC9w0, candleC9w1] =
      (spikeAt? detector10.thresholdPercent detector10.windowMinutes detector10.symbol
        (getPricesBetween [candleC9w0, candleC9w1] detector10.symbol 0 60) 1).isSome :=
  spec_C9_amended detector10 [candleC9w0, candleC9w1] 0 60 candleC9w1 [candleC9w0] 1
    (by norm_num [getLatestPrice, candleC9w0, candleC9w1, detector10, List.filter,
      List.getLast?])
    (by norm_num [getPricesBetween, candleC9w0, candleC9w1, detector10, List.filter])
    (by simp)
    (by norm_num [detector10])
    (by norm_num [getPricesBetween, candleC9w0, candleC9w1, detector10, List.filter])
    (by norm_num [getPricesBetween, candleC9w0, candleC9w1, detector10, List.filter])
    (by norm_num [maxClose, candleC9w0, candleC9w1, List.foldl])

/-! ## Chunk-range equations (unfolding lemmas for the well-founded
recursion) -/

theorem chunkRanges_of_le {f c : Nat} (h : f ≤ c) :
    chunkRanges f c =
      (f, min (f + chunkSize - 1) c) :: chunkRanges (f + chunkSize) c := by
  rw [chunkRanges]
  simp [h]

theorem chunkRanges_of_gt {f c : Nat} (h : c < f) : chunkRanges f c = [] := by
  rw [chunkRanges]
  simp [Nat.not_le.mpr h]

/-- An empty database, as after running `schema.sql` on a fresh instance. -/
def dbEmpty : DBState :=
  { policies := [], payouts := [], syncState := [], nextPolicyId := 1, nextPayoutId := 1 }

/-! ## C7 — first-run checkpoint seeding -/

/-- C7 counterexample: on first run (`lastBlock = 0`) with current height
800 — a height at or below 1000, which the claim explicitly covers — the
seeding leaves the starting point at 0, so the first fetched chunk is
`[1, 800]`: a scan from genesis, not a window anchored 1000 below the
current height as the claim asserts for every height. -/
theorem spec_C7_cex :
    seedHeight 0 800 = 0 ∧ chunkRanges (seedHeight 0 800 + 1) 800 = [(1, 800)] := by
  have h0 : seedHeight 0 800 = 0 := by norm_num [seedHeight]
  refine ⟨h0, ?_⟩
  rw [h0, chunkRanges_of_le (by norm_num), chunkRanges_of_gt (by norm_num [chunkSize])]
  norm_num [chunkSize]

/-- C7 (amended): on first run the starting point is seeded to
`currentHeight − 1000` clamped at zero — `currentHeight − 1000` when the
height exceeds the lookback window, and 0 (a genesis start, itself at most
1000 blocks deep) otherwise — so the replayed range never exceeds 1000
blocks. -/
theorem spec_C7_amended (currentBlock : Nat) :
    seedHeight 0 currentBlock = currentBlock - 1000 ∧
      currentBlock - seedHeight 0 currentBlock ≤ 1000 := by
  unfold seedHeight
  by_cases h : 1000 < currentBlock <;> simp [h] <;> omega

/-! ## C10 — checkpoint read failures are silent -/

/-- C10: `GetLastSyncedBlock` maps every scan failure — a missing row and a
transient database error alike — to `(0, nil)`: its error component is
always `nil`, and a tick whose checkpoint read fails is processed exactly
like a first run (`lastBlock = 0`), which then seeds the starting point to
`currentHeight − 1000` (`seedHeight`) instead of surfacing the error. -/
theorem spec_C10_read_failure_rewinds :
    (∀ e : String, getLastSyncedBlock (.error e) = (0, none))
  ∧ (∀ r : Except String Nat, (getLastSyncedBlock r).2 = none)
  ∧ (∀ fetch bn (err : String) now addr st,
      syncEvents fetch bn (some err) now addr st = syncEventsFrom fetch bn now addr 0 st)
  ∧ (∀ fetch bn now addr st, lookupSync addr st = none →
      syncEvents fetch bn none now addr st = syncEventsFrom fetch bn now addr 0 st) := by
  refine ⟨fun e => rfl, fun r => ?_, fun fetch bn err now addr st => rfl,
    fun fetch bn now addr st h => ?_⟩
  · cases r <;> rfl
  · simp [syncEvents, scanLastSynced, getLastSyncedBlock, h]

/-- Witness for `spec_C10_read_failure_rewinds`: a state with no checkpoint
row for the contract is processed from `lastBlock = 0`. -/
theorem spec_C10_wit :
    syncEvents (fun _ _ => .ok []) (.ok 5) none 0 "0xC" dbEmpty =
      syncEventsFrom (fun _ _ => .ok []) (.ok 5) 0 "0xC" 0 dbEmpty :=
  spec_C10_read_failure_rewinds.2.2.2 (fun _ _ => .ok []) (.ok 5) 0 "0xC" dbEmpty
    (by simp [lookupSync, dbEmpty])

/-! ## C2 — payout deduplication -/

theorem countP_eq_zero_of_any_false {α} (l : List α) (p : α → Bool)
    (h : l.any p = false) : l.countP p = 0 := by
  rw [List.countP_eq_zero]
  intro a ha
  have := (List.any_eq_false).mp h a ha
  simpa using this

theorem insertPayout_preserves_uniq (pid : Nat) (user : String) (amount : ℚ)
    (sid : Nat) (tx : String) (now : Int) (st : DBState)
    (h : AtMostOnePayoutPerTx st) :
    AtMostOnePayoutPerTx (insertPayout pid user amount sid tx now st).1 := by
  unfold insertPayout
  split
  · exact h
  next hc =>
    intro h'
    have hc' : st.payouts.any (fun p => p.txHash == some tx) = false := by
      rcases Bool.or_eq_false_iff.mp (Bool.eq_false_iff.mpr hc) with ⟨h1, _⟩
      exact h1
    unfold AtMostOnePayoutPerTx txHashCount at h
    unfold txHashCount
    dsimp only
    rw [List.countP_append]
    by_cases htx : tx = h'
    · subst htx
      have h0 : st.payouts.countP (fun p => p.txHash == some tx) = 0 :=
        countP_eq_zero_of_any_false _ _ hc'
      simp [List.countP_cons, h0]
    · have hne : (some tx == some h') = false := by
        simp [htx]
      have h1 := h h'
      simp only [List.countP_cons, List.countP_nil, hne]
      simpa using h1

theorem updatePolicyStatus_payouts (pid : Nat) (s : String) (st : DBState) :
    (updatePolicyStatus pid s st).payouts = st.payouts := rfl

theorem insertPayoutFromEvent_preserves_uniq (user : String) (pid : Nat)
    (amount : ℚ) (tx : String) (now : Int) (st : DBState)
    (h : AtMostOnePayoutPerTx st) :
    AtMostOnePayoutPerTx (insertPayoutFromEvent user pid amount tx now st).1 := by
  unfold insertPayoutFromEvent
  dsimp only
  have hpay : ∀ r : Option Nat,
      (match r with
        | some q => updatePolicyStatus q "claimed" st
        | none => st).payouts = st.payouts := by
    intro r
    cases r <;> rfl
  have hST : AtMostOnePayoutPerTx
      (match ((st.policies.filter
          (fun p => p.userAddress == user && p.status == "active")).map
            (fun p => p.id)).max? with
        | some q => updatePolicyStatus q "claimed" st
        | none => st) := by
    intro h'
    unfold txHashCount
    rw [hpay]
    exact h h'
  generalize hstm : (match ((st.policies.filter
      (fun p => p.userAddress == user && p.status == "active")).map
        (fun p => p.id)).max? with
      | some q => updatePolicyStatus q "claimed" st
      | none => st) = st1 at *
  split
  · exact hST
  next hdup =>
    split
    · exact hST
    next hcoll =>
      intro h'
      unfold AtMostOnePayoutPerTx txHashCount at hST
      unfold txHashCount
      dsimp only
      rw [List.countP_append]
      by_cases htx : tx = h'
      · subst htx
        have h0 : st1.payouts.countP (fun p => p.txHash == some tx) = 0 :=
          countP_eq_zero_of_any_false _ _ (Bool.eq_false_iff.mpr hdup)
        simp [List.countP_cons, h0]
      · have hne : (some tx == some h') = false := by
          simp [htx]
        have h1 := hST h'
        simp only [List.countP_cons, List.countP_nil, hne]
        simpa using h1

theorem insertPayoutFromEvent_dup_noop (user : String) (pid : Nat) (amount : ℚ)
    (tx : String) (now : Int) (st : DBState)
    (hdup : st.payouts.any (fun p => p.txHash == some tx) = true) :
    (insertPayoutFromEvent user pid amount tx now st).1.payouts = st.payouts ∧
      (insertPayoutFromEvent user pid amount tx now st).2 = none := by
  unfold insertPayoutFromEvent
  dsimp only
  have hpay : ∀ r : Option Nat,
      (match r with
        | some q => updatePolicyStatus q "claimed" st
        | none => st).payouts = st.payouts := by
    intro r
    cases r <;> rfl
  generalize hstm : (match ((st.policies.filter
      (fun p => p.userAddress == user && p.status == "active")).map
        (fun p => p.id)).max? with
      | some q => updatePolicyStatus q "claimed" st
      | none => st) = st1
  have hp1 : st1.payouts = st.payouts := by rw [← hstm]; exact hpay _
  rw [hp1, if_pos hdup]
  exact ⟨hp1, rfl⟩

theorem insertPayout_dup_errors (pid : Nat) (user : String) (amount : ℚ)
    (sid : Nat) (tx : String) (now : Int) (st : DBState)
    (hdup : st.payouts.any (fun p => p.txHash == some tx) = true) :
    insertPayout pid user amount sid tx now st = (st, some dupKeyMsg) := by
  unfold insertPayout
  rw [if_pos (by rw [hdup]; rfl)]

/-- A pre-existing payout row carrying transaction hash `0xabc`. -/
def payoutRowA : PayoutRow :=
  { id := 1, policyId := some 1, userAddress := "0xA", amount := 100,
    spikeId := some 7, txHash := some "0xabc", executedAt := 0 }

/-- A store already holding `payoutRowA`. -/
def stWithPayout : DBState :=
  { policies := [], payouts := [payoutRowA], syncState := [],
    nextPolicyId := 1, nextPayoutId := 2 }

/-- C2 counterexample: the Executor's insert path (`InsertPayout`) is a
plain `INSERT` with no `ON CONFLICT` clause, so inserting a second payout
with an already-recorded transaction hash fails with a uniqueness error —
it is not a no-op as the claim states for both insert paths. -/
theorem spec_C2_cex :
    insertPayout 2 "0xB" 100 7 "0xabc" 0 stWithPayout =
      (stWithPayout, some dupKeyMsg) := by
  simp [insertPayout, stWithPayout, payoutRowA]

/-- C2 (amended): at most one Payout row per transaction hash holds — both
insert paths refuse to add a row whose hash is already present, so the
uniqueness invariant is preserved by each of them — but only the
Reconciler's `InsertPayoutFromEvent` has insert-or-ignore semantics (a
duplicate is a no-op); the Executor's `InsertPayout` fails with a
uniqueness error on a duplicate, inserting nothing. -/
theorem spec_C2_amended :
    (∀ (pid : Nat) (user : String) (amount : ℚ) (sid : Nat) (tx : String)
        (now : Int) (st : DBState), AtMostOnePayoutPerTx st →
      AtMostOnePayoutPerTx (insertPayout pid user amount sid tx now st).1)
  ∧ (∀ (user : String) (pid : Nat) (amount : ℚ) (tx : String) (now : Int)
        (st : DBState), AtMostOnePayoutPerTx st →
      AtMostOnePayoutPerTx (insertPayoutFromEvent user pid amount tx now st).1)
  ∧ (∀ (user : String) (pid : Nat) (amount : ℚ) (tx : String) (now : Int)
        (st : DBState), st.payouts.any (fun p => p.txHash == some tx) = true →
      (insertPayoutFromEvent user pid amount tx now st).1.payouts = st.payouts ∧
        (insertPayoutFromEvent user pid amount tx now st).2 = none)
  ∧ (∀ (pid : Nat) (user : String) (amount : ℚ) (sid : Nat) (tx : String)
        (now : Int) (st : DBState),
      st.payouts.any (fun p => p.txHash == some tx) = true →
      insertPayout pid user amount sid tx now st = (st, some dupKeyMsg)) :=
  ⟨insertPayout_preserves_uniq, insertPayoutFromEvent_preserves_uniq,
    insertPayoutFromEvent_dup_noop, insertPayout_dup_errors⟩

/-- Witness for `spec_C2_amended`: inserting into an empty store keeps the
at-most-one-per-hash invariant. -/
theorem spec_C2_amended_wit :
    AtMostOnePayoutPerTx (insertPayout 1 "0xA" 100 7 "0xdead" 0 dbEmpty).1 :=
  spec_C2_amended.1 1 "0xA" 100 7 "0xdead" 0 dbEmpty
    (fun h => by simp [txHashCount, dbEmpty])

/-! ## C3 — no way back from `claimed` -/

theorem find?_claimed_of_map_update (l : List PolicyRow) (pid id : Nat)
    (h : ((l.find? (fun p => p.id == id)).map (fun p => p.status)) = some "claimed") :
    (((l.map (fun p => if p.id == pid then { p with status := "claimed" } else p)).find?
        (fun p => p.id == id)).map (fun p => p.status)) = some "claimed" := by
  induction l with
  | nil => simp at h
  | cons p l ih =>
    by_cases hid : (p.id == id) = true
    · have hq : ((if p.id == pid then { p with status := "claimed" } else p).id == id)
          = true := by
        by_cases hp : (p.id == pid) = true <;> simp [hp, hid]
      rw [@List.find?_cons_of_pos PolicyRow (fun q => q.id == id) p l hid] at h
      rw [List.map_cons, @List.find?_cons_of_pos PolicyRow (fun q => q.id == id) _ _ hq]
      simp only [Option.map_some'] at h ⊢
      by_cases hp : (p.id == pid) = true <;> simp [hp] <;> simpa using h
    · have hq : ¬ (((if p.id == pid then { p with status := "claimed" } else p).id == id)
          = true) := by
        by_cases hp : (p.id == pid) = true <;> simp [hp] <;> simpa using hid
      rw [@List.find?_cons_of_neg PolicyRow (fun q => q.id == id) p l hid] at h
      rw [List.map_cons, @List.find?_cons_of_neg PolicyRow (fun q => q.id == id) _ _ hq]
      exact ih h

theorem statusOf_update_claimed (pid id : Nat) (st : DBState)
    (h : statusOf st id = some "claimed") :
    statusOf (updatePolicyStatus pid "claimed" st) id = some "claimed" := by
  unfold statusOf updatePolicyStatus at *
  exact find?_claimed_of_map_update st.policies pid id h

theorem find?_append_of_some {α} (l₁ l₂ : List α) (p : α → Bool) {a : α}
    (h : l₁.find? p = some a) : (l₁ ++ l₂).find? p = some a := by
  induction l₁ with
  | nil => simp at h
  | cons x l ih =>
    by_cases hx : p x = true
    · rw [@List.find?_cons_of_pos _ p x l hx] at h
      rw [List.cons_append, @List.find?_cons_of_pos _ p x _ hx]
      exact h
    · rw [@List.find?_cons_of_neg _ p x l hx] at h
      rw [List.cons_append, @List.find?_cons_of_neg _ p x _ hx]
      exact ih h

theorem statusOf_congr_policies {st₁ st₂ : DBState} (h : st₁.policies = st₂.policies)
    (id : Nat) : statusOf st₁ id = statusOf st₂ id := by
  unfold statusOf
  rw [h]

theorem insertPolicyFromEvent_claimed (user : String) (premium coverage : ℚ)
    (expiry : Int) (tx : String) (now : Int) (st : DBState) (id : Nat)
    (h : statusOf st id = some "claimed") :
    statusOf (insertPolicyFromEvent user premium coverage expiry tx now st).1 id
      = some "claimed" := by
  unfold insertPolicyFromEvent
  split
  · exact h
  split
  · exact h
  unfold statusOf at h ⊢
  dsimp only
  obtain ⟨p, hp, hps⟩ := Option.map_eq_some'.mp h
  rw [find?_append_of_some _ _ _ hp]
  simpa using hps

theorem insertPayout_policies (pid : Nat) (user : String) (amount : ℚ) (sid : Nat)
    (tx : String) (now : Int) (st : DBState) :
    (insertPayout pid user amount sid tx now st).1.policies = st.policies := by
  unfold insertPayout
  split <;> rfl

theorem insertPayoutFromEvent_claimed (user : String) (pid : Nat) (amount : ℚ)
    (tx : String) (now : Int) (st : DBState) (id : Nat)
    (h : statusOf st id = some "claimed") :
    statusOf (insertPayoutFromEvent user pid amount tx now st).1 id = some "claimed" := by
  unfold insertPayoutFromEvent
  dsimp only
  have hst1 : ∀ r : Option Nat,
      statusOf (match r with
        | some q => updatePolicyStatus q "claimed" st
        | none => st) id = some "claimed" := by
    intro r
    cases r with
    | none => exact h
    | some q => exact statusOf_update_claimed q id st h
  have h1 : statusOf (match ((st.policies.filter
      (fun p => p.userAddress == user && p.status == "active")).map
        (fun p => p.id)).max? with
      | some q => updatePolicyStatus q "claimed" st
      | none => st) id = some "claimed" := hst1 _
  generalize hstm : (match ((st.policies.filter
      (fun p => p.userAddress == user && p.status == "active")).map
        (fun p => p.id)).max? with
      | some q => updatePolicyStatus q "claimed" st
      | none => st) = st1 at h1 ⊢
  split
  · exact h1
  split
  · exact h1
  exact (statusOf_congr_policies rfl id).trans h1

theorem executeForPolicy_claimed (env : Nat → Option String) (spike : Spike)
    (now : Int) (policy : PolicyRow) (st : DBState) (id : Nat)
    (h : statusOf st id = some "claimed") :
    statusOf (executeForPolicy env spike now policy st).1 id = some "claimed" := by
  unfold executeForPolicy
  cases env policy.id with
  | some e => exact h
  | none =>
    dsimp only
    have hpol := insertPayout_policies policy.id policy.userAddress
      policy.coverageAmount spike.id (mockTxHash spike.id) now st
    have h1 : statusOf (insertPayout policy.id policy.userAddress
        policy.coverageAmount spike.id (mockTxHash spike.id) now st).1 id
        = some "claimed" := by
      rw [statusOf_congr_policies hpol id]
      exact h
    split
    · exact h1
    · exact statusOf_update_claimed policy.id id _ h1

theorem executeFold_claimed (env : Nat → Option String) (spike : Spike) (now : Int)
    (ps : List PolicyRow) :
    ∀ (st : DBState) (acc : List (Nat × Option String)) (id : Nat),
      statusOf st id = some "claimed" →
      statusOf ((ps.foldl (executeStep env spike now) (st, acc)).1) id
        = some "claimed" := by
  induction ps with
  | nil =>
    intro st acc id h
    simpa using h
  | cons p t ih =>
    intro st acc id h
    rw [List.foldl_cons]
    exact ih _ _ id (executeForPolicy_claimed env spike now p st id h)

theorem executePayout_claimed (env : Nat → Option String) (spike : Spike) (now : Int)
    (st : DBState) (id : Nat) (h : statusOf st id = some "claimed") :
    statusOf (executePayout env spike now st).1 id = some "claimed" := by
  unfold executePayout executePayoutRun
  exact executeFold_claimed env spike now _ st [] id h

theorem processLog_claimed (now : Int) (l : EvLog) (st : DBState) (id : Nat)
    (h : statusOf st id = some "claimed") :
    statusOf (processLog now l st).1 id = some "claimed" := by
  cases l with
  | policyPurchased user premium coverage expiry tx =>
    exact insertPolicyFromEvent_claimed user premium coverage expiry tx now st id h
  | payoutExecuted user pid amount tx =>
    exact insertPayoutFromEvent_claimed user pid amount tx now st id h
  | unknown => exact h

theorem processLogs_claimed (now : Int) (logs : List EvLog) :
    ∀ (st : DBState) (id : Nat), statusOf st id = some "claimed" →
      statusOf (processLogs now logs st) id = some "claimed" := by
  induction logs with
  | nil =>
    intro st id h
    simpa [processLogs] using h
  | cons l t ih =>
    intro st id h
    unfold processLogs at ih ⊢
    rw [List.foldl_cons]
    exact ih _ id (processLog_claimed now l st id h)

theorem fetchAndProcessEvents_claimed (fetch : Nat → Nat → Except String (List EvLog))
    (now : Int) (a b : Nat) (st : DBState) (id : Nat)
    (h : statusOf st id = some "claimed") :
    statusOf (fetchAndProcessEvents fetch now a b st).1 id = some "claimed" := by
  unfold fetchAndProcessEvents
  cases fetch a b with
  | error e => exact h
  | ok logs => exact processLogs_claimed now logs st id h

theorem processChunks_claimed (fetch : Nat → Nat → Except String (List EvLog))
    (now : Int) (ranges : List (Nat × Nat)) :
    ∀ (st : DBState) (id : Nat), statusOf st id = some "claimed" →
      statusOf (processChunks fetch now ranges st).1 id = some "claimed" := by
  induction ranges with
  | nil =>
    intro st id h
    simpa [processChunks] using h
  | cons c t ih =>
    intro st id h
    unfold processChunks
    dsimp only
    have h1 := fetchAndProcessEvents_claimed fetch now c.1 c.2 st id h
    split
    · exact h1
    · exact ih _ id h1

theorem updateLastSyncedBlock_policies (addr : String) (n : Nat) (st : DBState) :
    (updateLastSyncedBlock addr n st).policies = st.policies := by
  unfold updateLastSyncedBlock
  split <;> rfl

theorem syncEventsFrom_claimed (fetch : Nat → Nat → Except String (List EvLog))
    (bn : Except String Nat) (now : Int) (addr : String) (lastBlock : Nat)
    (st : DBState) (id : Nat) (h : statusOf st id = some "claimed") :
    statusOf (syncEventsFrom fetch bn now addr lastBlock st).1 id = some "claimed" := by
  unfold syncEventsFrom
  cases bn with
  | error e => exact h
  | ok currentBlock =>
    dsimp only
    split
    · exact h
    have h1 := processChunks_claimed fetch now
      (chunkRanges (seedHeight lastBlock currentBlock + 1) currentBlock) st id h
    split
    · exact h1
    · rw [statusOf_congr_policies (updateLastSyncedBlock_policies addr currentBlock _) id]
      exact h1

theorem syncEvents_claimed (fetch : Nat → Nat → Except String (List EvLog))
    (bn : Except String Nat) (ckptFail : Option String) (now : Int) (addr : String)
    (st : DBState) (id : Nat) (h : statusOf st id = some "claimed") :
    statusOf (syncEvents fetch bn ckptFail now addr st).1 id = some "claimed" := by
  unfold syncEvents
  dsimp only
  split
  · exact h
  · exact syncEventsFrom_claimed fetch bn now addr _ st id h

/-- A policy row that is already `expired`. -/
def expiredRow : PolicyRow :=
  { id := 1, userAddress := "0xA", premium := 10, coverageAmount := 100,
    purchaseTime := 0, expiryTime := 100, status := "expired", txHash := none }

/-- A store with one policy that is already `expired`. -/
def stExpiredPolicy : DBState :=
  { policies := [expiredRow], payouts := [], syncState := [],
    nextPolicyId := 2, nextPayoutId := 1 }

/-- C3 counterexample: the claim says every transition to `claimed` is a
compare-and-set that takes effect only if the policy is currently `active`.
The Executor's `UpdatePolicyStatus` is an unconditional `UPDATE ... WHERE id`
with no status guard: applied to a policy whose status is `expired` (not
`active`), the write still takes effect. -/
theorem spec_C3_cex :
    statusOf stExpiredPolicy 1 = some "expired" ∧
      statusOf (updatePolicyStatus 1 "claimed" stExpiredPolicy) 1 = some "claimed" := by
  constructor
  · simp [statusOf, stExpiredPolicy, expiredRow]
  · simp [statusOf, updatePolicyStatus, stExpiredPolicy, expiredRow]

/-- C3 (amended): the Reconciler's transition to `claimed`
(`InsertPayoutFromEvent`) selects only a currently-`active` policy, but the
Executor's `UpdatePolicyStatus` is an unconditional status write, not a
compare-and-set.  Nevertheless, under the pipeline's operations as actually
invoked — `UpdatePolicyStatus` is only ever called with `claimed`, and
policy upserts never overwrite an existing row — a policy that is `claimed`
stays `claimed` forever: no step returns it to `active` (nor re-writes it
with anything else). -/
theorem spec_C3_amended (st st' : DBState) (h : Step st st') (id : Nat)
    (hc : statusOf st id = some "claimed") : statusOf st' id = some "claimed" := by
  cases h with
  | purchase user premium coverage expiry tx now st =>
    exact insertPolicyFromEvent_claimed user premium coverage expiry tx now st id hc
  | payoutEvent user pid amount tx now st =>
    exact insertPayoutFromEvent_claimed user pid amount tx now st id hc
  | execute env spike now st =>
    exact executePayout_claimed env spike now st id hc
  | sync fetch bn ckptFail now addr st =>
    exact syncEvents_claimed fetch bn ckptFail now addr st id hc

/-- A policy row that is already `claimed`. -/
def claimedRow : PolicyRow :=
  { id := 1, userAddress := "0xA", premium := 10, coverageAmount := 100,
    purchaseTime := 0, expiryTime := 100, status := "claimed", txHash := some "0xp1" }

/-- A store holding a single `claimed` policy. -/
def stClaimedPolicy : DBState :=
  { policies := [claimedRow], payouts := [], syncState := [],
    nextPolicyId := 2, nextPayoutId := 1 }

/-- Witness for `spec_C3_amended`: merging a purchase event into a store
whose policy 1 is `claimed` leaves policy 1 `claimed`. -/
theorem spec_C3_amended_wit :
    statusOf (insertPolicyFromEvent "0xB" 10 100 500 "0xp2" 0 stClaimedPolicy).1 1
      = some "claimed" :=
  spec_C3_amended stClaimedPolicy _
    (Step.purchase "0xB" 10 100 500 "0xp2" 0 stClaimedPolicy) 1
    (by simp [statusOf, stClaimedPolicy, claimedRow])

/-! ## C6 — per-policy failures do not abort the batch -/

theorem executeFold_outcomes (env : Nat → Option String) (spike : Spike) (now : Int)
    (ps : List PolicyRow) :
    ∀ (st : DBState) (acc : List (Nat × Option String)),
      ((ps.foldl (executeStep env spike now) (st, acc)).2).map Prod.fst
        = acc.map Prod.fst ++ ps.map PolicyRow.id := by
  induction ps with
  | nil =>
    intro st acc
    simp
  | cons p t ih =>
    intro st acc
    rw [List.foldl_cons]
    have hstep : executeStep env spike now (st, acc) p
        = ((executeForPolicy env spike now p st).1,
           acc ++ [(p.id, (executeForPolicy env spike now p st).2)]) := rfl
    rw [hstep, ih]
    simp

/-- C6: within a single `ExecutePayout` call, every eligible policy is
attempted no matter how the earlier ones fared: for every pattern of
per-policy failures (`env`), the outcome list records exactly one entry per
eligible policy, in order — no failure aborts the loop. -/
theorem spec_C6_no_abort (env : Nat → Option String) (spike : Spike) (now : Int)
    (st : DBState) :
    ((executePayoutRun env spike now st).2).map Prod.fst
      = (getActivePolicies now st).map PolicyRow.id := by
  unfold executePayoutRun
  rw [executeFold_outcomes]
  simp

/-! ## C5 — one settlement per eligible policy? -/

theorem find?_map_update_self (l : List PolicyRow) (pid : Nat) (s : String)
    (h : l.any (fun r => r.id == pid) = true) :
    ((l.map (fun p => if p.id == pid then { p with status := s } else p)).find?
      (fun q => q.id == pid)).map (fun q => q.status) = some s := by
  induction l with
  | nil => simp at h
  | cons r l ih =>
    by_cases hr : (r.id == pid) = true
    · have hq : (((if r.id == pid then { r with status := s } else r)).id == pid)
          = true := by
        simp [hr]
      rw [List.map_cons, @List.find?_cons_of_pos PolicyRow (fun q => q.id == pid) _ _ hq]
      simp [hr]
    · have hq : ¬ ((((if r.id == pid then { r with status := s } else r)).id == pid)
          = true) := by
        simp [hr]
      rw [List.map_cons, @List.find?_cons_of_neg PolicyRow (fun q => q.id == pid) _ _ hq]
      apply ih
      simpa [hr] using h

theorem statusOf_update_self (pid : Nat) (s : String) (st : DBState)
    (h : st.policies.any (fun r => r.id == pid) = true) :
    statusOf (updatePolicyStatus pid s st) pid = some s := by
  unfold statusOf updatePolicyStatus
  exact find?_map_update_self st.policies pid s h

theorem find?_map_update_ne (l : List PolicyRow) (pid : Nat) (s : String) (id : Nat)
    (h : id ≠ pid) :
    ((l.map (fun p => if p.id == pid then { p with status := s } else p)).find?
      (fun q => q.id == id)).map (fun q => q.status)
    = (l.find? (fun q => q.id == id)).map (fun q => q.status) := by
  induction l with
  | nil => simp
  | cons r l ih =>
    by_cases hr : (r.id == id) = true
    · have hrp : ¬ ((r.id == pid) = true) := by
        simp only [beq_iff_eq] at hr ⊢
        omega
      have hq : (((if r.id == pid then { r with status := s } else r)).id == id)
          = true := by
        simp only [if_neg hrp]
        exact hr
      rw [List.map_cons, @List.find?_cons_of_pos PolicyRow (fun q => q.id == id) _ _ hq,
        @List.find?_cons_of_pos PolicyRow (fun q => q.id == id) _ _ hr]
      simp [hrp]
    · have hq : ¬ ((((if r.id == pid then { r with status := s } else r)).id == id)
          = true) := by
        by_cases hp : (r.id == pid) = true <;> simp [hp] <;> simpa using hr
      rw [List.map_cons, @List.find?_cons_of_neg PolicyRow (fun q => q.id == id) _ _ hq,
        @List.find?_cons_of_neg PolicyRow (fun q => q.id == id) _ _ hr]
      exact ih

theorem statusOf_update_ne (pid : Nat) (s : String) (st : DBState) (id : Nat)
    (h : id ≠ pid) :
    statusOf (updatePolicyStatus pid s st) id = statusOf st id := by
  unfold statusOf updatePolicyStatus
  exact find?_map_update_ne st.policies pid s id h

theorem insertPayout_no_conflict (pid : Nat) (user : String) (amount : ℚ)
    (sid : Nat) (tx : String) (now : Int) (st : DBState)
    (h1 : st.payouts.any (fun r => r.txHash == some tx) = false)
    (h2 : st.payouts.any (fun r => r.policyId == some pid) = false) :
    insertPayout pid user amount sid tx now st =
      ({ st with
          payouts := st.payouts ++
            [⟨st.nextPayoutId, some pid, user, amount, some sid, some tx, now⟩],
          nextPayoutId := st.nextPayoutId + 1 }, none) := by
  unfold insertPayout
  rw [if_neg]
  simp [h1, h2]

/-- A successful `executeForPolicy`: external calls succeed and neither
unique constraint is violated. -/
theorem executeForPolicy_success (env : Nat → Option String) (spike : Spike)
    (now : Int) (p : PolicyRow) (st : DBState)
    (henv : env p.id = none)
    (h1 : st.payouts.any (fun r => r.txHash == some (mockTxHash spike.id)) = false)
    (h2 : st.payouts.any (fun r => r.policyId == some p.id) = false) :
    executeForPolicy env spike now p st =
      (updatePolicyStatus p.id "claimed"
        ({ st with
            payouts := st.payouts ++
              [⟨st.nextPayoutId, some p.id, p.userAddress, p.coverageAmount,
                some spike.id, some (mockTxHash spike.id), now⟩],
            nextPayoutId := st.nextPayoutId + 1 }), none) := by
  unfold executeForPolicy
  rw [henv]
  dsimp only
  rw [insertPayout_no_conflict p.id p.userAddress p.coverageAmount spike.id
    (mockTxHash spike.id) now st h1 h2]

/-- A duplicate-key `executeForPolicy`: the external calls succeed but the
mock transaction hash is already present, so the insert errors and nothing
is written. -/
theorem executeForPolicy_dup (env : Nat → Option String) (spike : Spike)
    (now : Int) (p : PolicyRow) (st : DBState)
    (henv : env p.id = none)
    (hdup : st.payouts.any (fun r => r.txHash == some (mockTxHash spike.id)) = true) :
    executeForPolicy env spike now p st = (st, some dupKeyMsg) := by
  unfold executeForPolicy
  rw [henv]
  dsimp only
  rw [insertPayout_dup_errors p.id p.userAddress p.coverageAmount spike.id
    (mockTxHash spike.id) now st hdup]

theorem executeFold_all_dup (env : Nat → Option String) (spike : Spike) (now : Int)
    (rest : List PolicyRow) :
    ∀ (st : DBState) (acc : List (Nat × Option String)),
      st.payouts.any (fun r => r.txHash == some (mockTxHash spike.id)) = true →
      (∀ q ∈ rest, env q.id = none) →
      rest.foldl (executeStep env spike now) (st, acc)
        = (st, acc ++ rest.map (fun q => (q.id, some dupKeyMsg))) := by
  induction rest with
  | nil =>
    intro st acc _ _
    simp
  | cons q t ih =>
    intro st acc hdup henv
    rw [List.foldl_cons]
    have hq : executeStep env spike now (st, acc) q = (st, acc ++ [(q.id, some dupKeyMsg)]) := by
      unfold executeStep
      rw [executeForPolicy_dup env spike now q st (henv q (by simp)) hdup]
    rw [hq, ih st (acc ++ [(q.id, some dupKeyMsg)]) hdup
      (fun r hr => henv r (by simp [hr]))]
    simp

/-- First eligible policy: holder `0xAAA`. -/
def polA : PolicyRow :=
  { id := 1, userAddress := "0xAAA", premium := 10, coverageAmount := 100,
    purchaseTime := 0, expiryTime := 1000, status := "active", txHash := some "0xp1" }

/-- Second eligible policy: a different holder `0xBBB`. -/
def polB : PolicyRow :=
  { id := 2, userAddress := "0xBBB", premium := 10, coverageAmount := 100,
    purchaseTime := 0, expiryTime := 1000, status := "active", txHash := some "0xp2" }

/-- A store with two active, unexpired policies and no payouts. -/
def stTwoPolicies : DBState :=
  { policies := [polA, polB], payouts := [], syncState := [],
    nextPolicyId := 3, nextPayoutId := 1 }

/-- A detected spike with id 7. -/
def spike7 : Spike :=
  { id := 7, timestamp := 60, symbol := "BTCUSDT", priceBefore := 100,
    priceAfter := 80, dropPercent := 20 }

/-- An environment in which every external ledger call succeeds. -/
def envOk : Nat → Option String := fun _ => none

/-- C5 counterexample: the claim promises one settlement — and one Payout
row keyed by that settlement's own unique transaction identifier — per
eligible policy.  But `executeForPolicy` derives the mock transaction hash
from the spike id alone, so with two eligible policies and every external
call succeeding, the second insert collides with the first on
`payouts.tx_hash` and fails: only one Payout row exists, only policy 1 is
`claimed`, and policy 2 stays `active` even though its submission
"succeeded". -/
theorem spec_C5_cex :
    ((executePayoutRun envOk spike7 0 stTwoPolicies).1.payouts.map
        (fun r => r.policyId)) = [some 1] ∧
    statusOf (executePayoutRun envOk spike7 0 stTwoPolicies).1 1 = some "claimed" ∧
    statusOf (executePayoutRun envOk spike7 0 stTwoPolicies).1 2 = some "active" ∧
    (executePayoutRun envOk spike7 0 stTwoPolicies).2
      = [(1, none), (2, some dupKeyMsg)] := by
  refine ⟨?_, ?_, ?_, ?_⟩ <;>
    norm_num [executePayoutRun, executeStep, executeForPolicy, insertPayout,
      updatePolicyStatus, getActivePolicies, statusOf, stTwoPolicies, polA, polB,
      spike7, envOk, List.filter, List.foldl, List.find?, List.any]
  exact ⟨_, rfl, rfl⟩

/-- C5 (amended): for every detected event, the Executor attempts each
eligible policy, but the mock transaction identifier is a function of the
spike alone, shared by all settlements of one event.  Consequently (a) when
every external call succeeds, exactly one Payout row is created — for the
first eligible policy, which alone transitions to `claimed`; every later
eligible policy fails the `payouts.tx_hash` uniqueness constraint and is
left untouched; and (b) in the Scenario-C configuration — two eligible
policies where the first one's external call fails and the second succeeds —
exactly one Payout row is created, the second policy is `claimed`, and the
failed one is left untouched (still `active`). -/
theorem spec_C5_amended :
    (∀ (env : Nat → Option String) (spike : Spike) (now : Int) (st : DBState)
        (p : PolicyRow) (rest : List PolicyRow),
      getActivePolicies now st = p :: rest →
      (∀ q ∈ p :: rest, env q.id = none) →
      st.payouts.any (fun r => r.txHash == some (mockTxHash spike.id)) = false →
      st.payouts.any (fun r => r.policyId == some p.id) = false →
      (executePayoutRun env spike now st).2
          = (p.id, none) :: rest.map (fun q => (q.id, some dupKeyMsg)) ∧
        (executePayoutRun env spike now st).1.payouts.length
          = st.payouts.length + 1 ∧
        statusOf (executePayoutRun env spike now st).1 p.id = some "claimed" ∧
        (∀ q ∈ rest, q.id ≠ p.id →
          statusOf (executePayoutRun env spike now st).1 q.id = statusOf st q.id))
  ∧ (∀ (env : Nat → Option String) (spike : Spike) (now : Int) (st : DBState)
        (p q : PolicyRow) (err : String),
      getActivePolicies now st = [p, q] →
      env p.id = some err →
      env q.id = none →
      st.payouts.any (fun r => r.txHash == some (mockTxHash spike.id)) = false →
      st.payouts.any (fun r => r.policyId == some q.id) = false →
      (executePayoutRun env spike now st).2 = [(p.id, some err), (q.id, none)] ∧
        (executePayoutRun env spike now st).1.payouts.length
          = st.payouts.length + 1 ∧
        statusOf (executePayoutRun env spike now st).1 q.id = some "claimed" ∧
        (p.id ≠ q.id →
          statusOf (executePayoutRun env spike now st).1 p.id = statusOf st p.id)) := by
  constructor
  · intro env spike now st p rest hact henv h1 h2
    have hmem : p ∈ getActivePolicies now st := by
      rw [hact]
      exact List.mem_cons_self p rest
    have hin : p ∈ st.policies := (List.mem_filter.mp hmem).1
    have hany : st.policies.any (fun r => r.id == p.id) = true :=
      List.any_eq_true.mpr ⟨p, hin, by simp⟩
    have henvp : env p.id = none := henv p (List.mem_cons_self p rest)
    have hsucc := executeForPolicy_success env spike now p st henvp h1 h2
    have hstep : executeStep env spike now (st, []) p
        = (updatePolicyStatus p.id "claimed"
            ({ st with
                payouts := st.payouts ++
                  [⟨st.nextPayoutId, some p.id, p.userAddress, p.coverageAmount,
                    some spike.id, some (mockTxHash spike.id), now⟩],
                nextPayoutId := st.nextPayoutId + 1 }), [(p.id, none)]) := by
      unfold executeStep
      rw [hsucc]
      rfl
    have hdupA : (updatePolicyStatus p.id "claimed"
        ({ st with
            payouts := st.payouts ++
              [⟨st.nextPayoutId, some p.id, p.userAddress, p.coverageAmount,
                some spike.id, some (mockTxHash spike.id), now⟩],
            nextPayoutId := st.nextPayoutId + 1 })).payouts.any
        (fun r => r.txHash == some (mockTxHash spike.id)) = true := by
      rw [updatePolicyStatus_payouts]
      simp
    have hfold := executeFold_all_dup env spike now rest _ [(p.id, none)] hdupA
      (fun r hr => henv r (List.mem_cons_of_mem p hr))
    unfold executePayoutRun
    rw [hact, List.foldl_cons, hstep, hfold]
    refine ⟨by simp, ?_, ?_, ?_⟩
    · rw [updatePolicyStatus_payouts]
      simp
    · exact statusOf_update_self p.id "claimed" _ hany
    · intro q hq hne
      rw [statusOf_update_ne _ _ _ _ hne]
      exact statusOf_congr_policies rfl q.id
  · intro env spike now st p q err hact henvp henvq h1 h2
    have hmemq : q ∈ getActivePolicies now st := by
      rw [hact]
      simp
    have hinq : q ∈ st.policies := (List.mem_filter.mp hmemq).1
    have hanyq : st.policies.any (fun r => r.id == q.id) = true :=
      List.any_eq_true.mpr ⟨q, hinq, by simp⟩
    have hfailp : executeForPolicy env spike now p st = (st, some err) := by
      unfold executeForPolicy
      rw [henvp]
    have hstep1 : executeStep env spike now (st, []) p = (st, [(p.id, some err)]) := by
      unfold executeStep
      rw [hfailp]
      rfl
    have hsucc := executeForPolicy_success env spike now q st henvq h1 h2
    have hstep2 : executeStep env spike now (st, [(p.id, some err)]) q
        = (updatePolicyStatus q.id "claimed"
            ({ st with
                payouts := st.payouts ++
                  [⟨st.nextPayoutId, some q.id, q.userAddress, q.coverageAmount,
                    some spike.id, some (mockTxHash spike.id), now⟩],
                nextPayoutId := st.nextPayoutId + 1 }),
           [(p.id, some err), (q.id, none)]) := by
      unfold executeStep
      rw [hsucc]
      rfl
    unfold executePayoutRun
    rw [hact, List.foldl_cons, hstep1, List.foldl_cons, hstep2, List.foldl_nil]
    refine ⟨rfl, ?_, ?_, ?_⟩
    · rw [updatePolicyStatus_payouts]
      simp
    · exact statusOf_update_self q.id "claimed" _ hanyq
    · intro hne
      rw [statusOf_update_ne _ _ _ _ hne]
      exact statusOf_congr_policies rfl p.id

/-- Witness for `spec_C5_amended`, part (a), on the concrete two-policy
store: policy 1 ends `claimed` and policy 2 errors on the duplicate hash. -/
theorem spec_C5_amended_wit :
    (executePayoutRun envOk spike7 0 stTwoPolicies).2
        = (polA.id, none) :: [polB].map (fun q => (q.id, some dupKeyMsg)) ∧
      (executePayoutRun envOk spike7 0 stTwoPolicies).1.payouts.length
        = stTwoPolicies.payouts.length + 1 ∧
      statusOf (executePayoutRun envOk spike7 0 stTwoPolicies).1 polA.id
        = some "claimed" ∧
      (∀ q ∈ [polB], q.id ≠ polA.id →
        statusOf (executePayoutRun envOk spike7 0 stTwoPolicies).1 q.id
          = statusOf stTwoPolicies q.id) :=
  spec_C5_amended.1 envOk spike7 0 stTwoPolicies polA [polB]
    (by simp [getActivePolicies, stTwoPolicies, polA, polB, List.filter])
    (fun q _ => rfl)
    (by simp [stTwoPolicies])
    (by simp [stTwoPolicies])

/-! ## C8 — chunked range coverage -/

/-- The properties claimed of one tick's chunk sequence for the interval
`(lastSynced, currentBlock]`: the first chunk starts right after the
checkpoint, consecutive chunks are adjacent (no overlap, no gap, strictly
increasing), every chunk is nonempty and spans at most `chunkSize` blocks,
and the chunks cover exactly the blocks of the interval. -/
def ChunkSpec (lastSynced currentBlock : Nat) : Prop :=
  (((chunkRanges (lastSynced + 1) currentBlock).map Prod.fst).head?
      = some (lastSynced + 1))
  ∧ List.Chain' (fun a b => b.1 = a.2 + 1) (chunkRanges (lastSynced + 1) currentBlock)
  ∧ (∀ p ∈ chunkRanges (lastSynced + 1) currentBlock,
      p.1 ≤ p.2 ∧ p.2 + 1 - p.1 ≤ chunkSize)
  ∧ (∀ b : Nat, (∃ p ∈ chunkRanges (lastSynced + 1) currentBlock, p.1 ≤ b ∧ b ≤ p.2)
      ↔ (lastSynced < b ∧ b ≤ currentBlock))

theorem chunkRanges_spec (f c : Nat) (h : f ≤ c) :
    ((chunkRanges f c).map Prod.fst).head? = some f
  ∧ List.Chain' (fun a b => b.1 = a.2 + 1) (chunkRanges f c)
  ∧ (∀ p ∈ chunkRanges f c, p.1 ≤ p.2 ∧ p.2 + 1 - p.1 ≤ chunkSize)
  ∧ (∀ b : Nat, (∃ p ∈ chunkRanges f c, p.1 ≤ b ∧ b ≤ p.2) ↔ (f ≤ b ∧ b ≤ c)) := by
  have hpos : 0 < chunkSize := by norm_num [chunkSize]
  rw [chunkRanges_of_le h]
  by_cases h2 : f + chunkSize ≤ c
  · obtain ⟨ih1, ih2, ih3, ih4⟩ := chunkRanges_spec (f + chunkSize) c h2
    have hmin : min (f + chunkSize - 1) c = f + chunkSize - 1 :=
      Nat.min_eq_left (by omega)
    rw [hmin]
    refine ⟨by simp, ?_, ?_, ?_⟩
    · apply List.chain'_cons'.mpr
      refine ⟨?_, ih2⟩
      intro y hy
      have hh : (chunkRanges (f + chunkSize) c).head?.map Prod.fst
          = some (f + chunkSize) := by
        rw [← List.head?_map]
        exact ih1
      have hy' : (chunkRanges (f + chunkSize) c).head? = some y :=
        Option.mem_def.mp hy
      rw [hy'] at hh
      simp only [Option.map_some', Option.some.injEq] at hh
      dsimp only
      omega
    · intro p hp
      rcases List.mem_cons.mp hp with rfl | hp'
      · constructor <;> simp <;> omega
      · exact ih3 p hp'
    · intro b
      constructor
      · rintro ⟨p, hp, hb1, hb2⟩
        rcases List.mem_cons.mp hp with rfl | hp'
        · simp only at hb1 hb2
          omega
        · have := (ih4 b).mp ⟨p, hp', hb1, hb2⟩
          omega
      · rintro ⟨hb1, hb2⟩
        by_cases hbb : b ≤ f + chunkSize - 1
        · exact ⟨(f, f + chunkSize - 1), List.mem_cons_self _ _, hb1, hbb⟩
        · obtain ⟨p, hp, hx, hy⟩ := (ih4 b).mpr ⟨by omega, hb2⟩
          exact ⟨p, List.mem_cons_of_mem _ hp, hx, hy⟩
  · have hmin : min (f + chunkSize - 1) c = c := Nat.min_eq_right (by omega)
    rw [hmin, chunkRanges_of_gt (by omega)]
    refine ⟨by simp, by simp, ?_, ?_⟩
    · intro p hp
      rcases List.mem_cons.mp hp with rfl | hp'
      · exact ⟨h, by omega⟩
      · simp at hp'
    · intro b
      constructor
      · rintro ⟨p, hp, hb1, hb2⟩
        rcases List.mem_cons.mp hp with rfl | hp'
        · exact ⟨hb1, hb2⟩
        · simp at hp'
      · rintro ⟨hb1, hb2⟩
        exact ⟨(f, c), List.mem_cons_self _ _, hb1, hb2⟩
  termination_by c + 1 - f
  decreasing_by simp_wf; simp only [chunkSize]; omega

/-- C8: on a tick with `lastSynced < currentBlock`, the fetch ranges are
exactly the chunks of `(lastSynced, currentBlock]`: the first chunk starts
at `lastSynced + 1`, consecutive chunks are adjacent (strictly increasing,
no overlap, no gap), each chunk spans at most 1000 blocks, and a block is
covered by some chunk iff it lies in the interval.  The bound on
`currentBlock` keeps the `Nat` model in the range where Go's `uint64`
arithmetic cannot overflow. -/
theorem spec_C8_chunks (lastSynced currentBlock : Nat)
    (h : lastSynced < currentBlock) (_h64 : currentBlock ≤ 2 ^ 64 - 1001) :
    ChunkSpec lastSynced currentBlock := by
  obtain ⟨h1, h2, h3, h4⟩ := chunkRanges_spec (lastSynced + 1) currentBlock h
  refine ⟨h1, h2, h3, fun b => ?_⟩
  rw [h4 b]
  omega

/-- Witness for `spec_C8_chunks` at checkpoint 5 and height 2500. -/
theorem spec_C8_wit :
    5 < 2500 ∧ 2500 ≤ 2 ^ 64 - 1001 ∧ ChunkSpec 5 2500 :=
  ⟨by norm_num, by norm_num, spec_C8_chunks 5 2500 (by norm_num) (by norm_num)⟩

/-! ## C4 — the checkpoint is the tick's single commit point -/

theorem insertPolicyFromEvent_syncState (user : String) (premium coverage : ℚ)
    (expiry : Int) (tx : String) (now : Int) (st : DBState) :
    (insertPolicyFromEvent user premium coverage expiry tx now st).1.syncState
      = st.syncState := by
  unfold insertPolicyFromEvent
  split
  · rfl
  split <;> rfl

theorem insertPayoutFromEvent_syncState (user : String) (pid : Nat) (amount : ℚ)
    (tx : String) (now : Int) (st : DBState) :
    (insertPayoutFromEvent user pid amount tx now st).1.syncState
      = st.syncState := by
  unfold insertPayoutFromEvent
  dsimp only
  have hss : ∀ r : Option Nat,
      (match r with
        | some q => updatePolicyStatus q "claimed" st
        | none => st).syncState = st.syncState := by
    intro r
    cases r <;> rfl
  have h1 := hss ((st.policies.filter
    (fun p => p.userAddress == user && p.status == "active")).map
      (fun p => p.id)).max?
  generalize hstm : (match ((st.policies.filter
      (fun p => p.userAddress == user && p.status == "active")).map
        (fun p => p.id)).max? with
      | some q => updatePolicyStatus q "claimed" st
      | none => st) = st1 at h1 ⊢
  split
  · exact h1
  split
  · exact h1
  exact h1

theorem processLog_syncState (now : Int) (l : EvLog) (st : DBState) :
    (processLog now l st).1.syncState = st.syncState := by
  cases l with
  | policyPurchased user premium coverage expiry tx =>
    exact insertPolicyFromEvent_syncState user premium coverage expiry tx now st
  | payoutExecuted user pid amount tx =>
    exact insertPayoutFromEvent_syncState user pid amount tx now st
  | unknown => rfl

theorem processLogs_syncState (now : Int) (logs : List EvLog) :
    ∀ st : DBState, (processLogs now logs st).syncState = st.syncState := by
  induction logs with
  | nil =>
    intro st
    rfl
  | cons l t ih =>
    intro st
    unfold processLogs at ih ⊢
    rw [List.foldl_cons]
    rw [ih]
    exact processLog_syncState now l st

theorem processChunks_syncState (fetch : Nat → Nat → Except String (List EvLog))
    (now : Int) (ranges : List (Nat × Nat)) :
    ∀ st : DBState, (processChunks fetch now ranges st).1.syncState = st.syncState := by
  induction ranges with
  | nil =>
    intro st
    rfl
  | cons c t ih =>
    intro st
    unfold processChunks fetchAndProcessEvents
    dsimp only
    cases fetch c.1 c.2 with
    | error e => rfl
    | ok logs =>
      dsimp only
      rw [ih]
      exact processLogs_syncState now logs st

theorem processChunks_ok_fetches (fetch : Nat → Nat → Except String (List EvLog))
    (now : Int) (ranges : List (Nat × Nat)) :
    ∀ st : DBState, (processChunks fetch now ranges st).2 = none →
      ∀ pr ∈ ranges, ∃ logs, fetch pr.1 pr.2 = Except.ok logs := by
  induction ranges with
  | nil =>
    intro st _ pr hpr
    simp at hpr
  | cons c t ih =>
    intro st hok pr hpr
    unfold processChunks fetchAndProcessEvents at hok
    dsimp only at hok
    cases hfetch : fetch c.1 c.2 with
    | error e =>
      rw [hfetch] at hok
      simp at hok
    | ok logs =>
      rw [hfetch] at hok
      dsimp only at hok
      rcases List.mem_cons.mp hpr with rfl | hpr'
      · exact ⟨logs, hfetch⟩
      · exact ih _ hok pr hpr'

theorem find?_append_none {α} (l₁ l₂ : List α) (p : α → Bool)
    (h : l₁.find? p = none) : (l₁ ++ l₂).find? p = l₂.find? p := by
  induction l₁ with
  | nil => simp
  | cons x l ih =>
    by_cases hx : p x = true
    · rw [@List.find?_cons_of_pos _ p x l hx] at h
      simp at h
    · rw [@List.find?_cons_of_neg _ p x l hx] at h
      rw [List.cons_append, @List.find?_cons_of_neg _ p x _ hx]
      exact ih h

theorem find?_map_upsert_self (l : List (String × Nat)) (addr : String) (n : Nat)
    (hex : l.any (fun kv => kv.fst == addr) = true) :
    ((l.map (fun kv => if kv.fst == addr then (kv.fst, n) else kv)).find?
      (fun kv => kv.fst == addr)).map (fun kv => kv.snd) = some n := by
  induction l with
  | nil => simp at hex
  | cons kv l ih =>
    by_cases hk : (kv.fst == addr) = true
    · have hq : (((if kv.fst == addr then (kv.fst, n) else kv)).fst == addr)
          = true := by
        simp [hk]
      rw [List.map_cons,
        @List.find?_cons_of_pos (String × Nat) (fun kv => kv.fst == addr) _ _ hq]
      simp [hk]
    · have hq : ¬ ((((if kv.fst == addr then (kv.fst, n) else kv)).fst == addr)
          = true) := by
        simp [hk]
      rw [List.map_cons,
        @List.find?_cons_of_neg (String × Nat) (fun kv => kv.fst == addr) _ _ hq]
      apply ih
      simpa [hk] using hex

theorem lookupSync_update_self (addr : String) (n : Nat) (st : DBState) :
    lookupSync addr (updateLastSyncedBlock addr n st) = some n := by
  unfold updateLastSyncedBlock lookupSync
  by_cases hex : st.syncState.any (fun kv => kv.fst == addr) = true
  · rw [if_pos hex]
    exact find?_map_upsert_self st.syncState addr n hex
  · rw [if_neg hex]
    dsimp only
    have hnone : st.syncState.find? (fun kv => kv.fst == addr) = none := by
      rw [List.find?_eq_none]
      intro kv hkv
      have := (List.any_eq_false.mp (Bool.eq_false_iff.mpr hex)) kv hkv
      simpa using this
    rw [find?_append_none _ _ _ hnone]
    simp

theorem syncEventsFrom_ckpt (fetch : Nat → Nat → Except String (List EvLog))
    (bn : Except String Nat) (now : Int) (addr : String) (lastBlock : Nat)
    (st : DBState) :
    (((syncEventsFrom fetch bn now addr lastBlock st).2).isSome →
        (syncEventsFrom fetch bn now addr lastBlock st).1.syncState = st.syncState)
  ∧ (∀ c : Nat, bn = Except.ok c →
      (syncEventsFrom fetch bn now addr lastBlock st).2 = none →
      lastBlock < c →
      lookupSync addr (syncEventsFrom fetch bn now addr lastBlock st).1 = some c ∧
        ∀ pr ∈ chunkRanges (seedHeight lastBlock c + 1) c,
          ∃ logs, fetch pr.1 pr.2 = Except.ok logs) := by
  cases bn with
  | error e =>
    refine ⟨fun _ => rfl, fun c hc => ?_⟩
    simp at hc
  | ok c0 =>
    unfold syncEventsFrom
    dsimp only
    by_cases hle : c0 ≤ lastBlock
    · rw [if_pos hle]
      refine ⟨fun hs => by simp at hs, fun c hc _ hlt => ?_⟩
      injection hc with hc
      subst hc
      omega
    · rw [if_neg hle]
      cases hr : (processChunks fetch now
          (chunkRanges (seedHeight lastBlock c0 + 1) c0) st).2 with
      | some e =>
        refine ⟨fun _ => ?_, fun c hc hok _ => ?_⟩
        · exact processChunks_syncState fetch now _ st
        · simp at hok
      | none =>
        refine ⟨fun hs => by simp at hs, fun c hc _ hlt => ?_⟩
        injection hc with hc
        subst hc
        refine ⟨lookupSync_update_self addr _ _, ?_⟩
        exact processChunks_ok_fetches fetch now _ st hr

/-- C4: the persisted checkpoint is the tick's single commit point.  If a
`syncEvents` tick fails for any reason — checkpoint-height RPC failure or a
failing chunk fetch — the `sync_state` table is left exactly as it was, so
the next tick retries from the same `lastSyncedHeight`; and if the tick
succeeds on a range with `lastBlock < currentHeight`, the checkpoint is set
to `currentHeight` and every chunk of the range was fetched without
error. -/
theorem spec_C4_commit_point (fetch : Nat → Nat → Except String (List EvLog))
    (bn : Except String Nat) (ckptFail : Option String) (now : Int)
    (addr : String) (st : DBState) :
    (((syncEvents fetch bn ckptFail now addr st).2).isSome →
        (syncEvents fetch bn ckptFail now addr st).1.syncState = st.syncState)
  ∧ (∀ c : Nat, bn = Except.ok c →
      (syncEvents fetch bn ckptFail now addr st).2 = none →
      (getLastSyncedBlock (scanLastSynced st addr ckptFail)).1 < c →
      lookupSync addr (syncEvents fetch bn ckptFail now addr st).1 = some c ∧
        ∀ pr ∈ chunkRanges
            (seedHeight (getLastSyncedBlock (scanLastSynced st addr ckptFail)).1 c + 1)
            c,
          ∃ logs, fetch pr.1 pr.2 = Except.ok logs) := by
  unfold syncEvents
  cases hscan : scanLastSynced st addr ckptFail with
  | ok v => exact syncEventsFrom_ckpt fetch bn now addr v st
  | error e => exact syncEventsFrom_ckpt fetch bn now addr 0 st

/-- A store whose checkpoint for contract `0xC` is height 5. -/
def stSyncW : DBState :=
  { policies := [], payouts := [], syncState := [("0xC", 5)],
    nextPolicyId := 1, nextPayoutId := 1 }

/-- An RPC oracle whose every log fetch fails. -/
def fetchFailW : Nat → Nat → Except String (List EvLog) :=
  fun a b =>
    let _ := a
    let _ := b
    .error "rpc failure"

/-- Witness for `spec_C4_commit_point`: a tick at height 8 whose only chunk
fetch fails leaves the checkpoint at 5. -/
theorem spec_C4_wit :
    (syncEvents fetchFailW (.ok 8) none 0 "0xC" stSyncW).1.syncState
      = stSyncW.syncState :=
  (spec_C4_commit_point fetchFailW (.ok 8) none 0 "0xC" stSyncW).1
    (by
      have hcr : chunkRanges 6 8 = [(6, 8)] := by
        rw [chunkRanges_of_le (by norm_num)]
        rw [chunkRanges_of_gt (by norm_num [chunkSize])]
        norm_num [chunkSize]
      simp [syncEvents, syncEventsFrom, scanLastSynced, lookupSync,
        getLastSyncedBlock, seedHeight, processChunks, fetchAndProcessEvents,
        hcr, stSyncW, fetchFailW, List.find?])

end SpikeShield
